import Mathlib

/-!
Verification of the stratified-sampling / scale-up-estimation / significance
pipeline of the aud-metaphor thesis scripts.

The embedding models:
* `06_takeasampleoftypes.py` — the per-group sampling step;
* `07_frequenciesandestimates.py` — `process_workbook`'s per-sheet
  low-frequency partitioning, metaphor counting and scale-up estimation;
* `08_calculatingsignificanceandeffect.py` — `infer_corpus_sizes_from_totals`,
  `g2_log_likelihood` and `log_ratio_log2`.

Spreadsheet cells are modelled as `Option String` (`none` = empty cell);
Python truthiness of a cell value is `truthy`; `str(value)` is `cellStr`.
Exact rational arithmetic (`ℚ`) stands in for Python floats where the code
only does field arithmetic; real numbers (`ℝ`) stand in where the code takes
logarithms.
-/

namespace AudMetaphor

/-- A spreadsheet cell: `none` models an empty cell, `some s` a cell holding
the string `s`. -/
abbrev Cell := Option String

/-- Python truthiness of a cell value: `None` and the empty string are falsy,
all other strings truthy. -/
def truthy : Cell → Bool
  | none => false
  | some s => s ≠ ""

/-- Python `str(value)` applied to a cell (`str(None) = "None"`). -/
def cellStr : Cell → String
  | none => "None"
  | some s => s

/-- Python's `str.upper()` on the ASCII range, as a map over the string's
characters. -/
def strUpper (s : String) : String := ⟨s.data.map Char.toUpper⟩

/-- A data row of a worksheet: column C (`identity`, index 2), column E
(`annotation`, index 4), and the remaining passthrough columns abstracted as
one string. -/
structure Row where
  identity : Cell
  annotation : Cell
  rest : String
deriving DecidableEq, Repr

/-- `07_frequenciesandestimates.py`, the test
`row[4].value and str(row[4].value).upper() in ('Y', 'O')` used in all three
metaphor-counting loops. -/
def isMetaphor (v : Cell) : Bool :=
  truthy v && (strUpper (cellStr v) == "Y" || strUpper (cellStr v) == "O")

/-- A metaphor-counting loop of `process_workbook`: the number of rows whose
annotation column passes `isMetaphor`. -/
def countMetaphors (rows : List Row) : Nat :=
  (rows.filter fun r => isMetaphor r.annotation).length

/-- `string_counts[s]` built at lines 45–49 of `07_frequenciesandestimates.py`:
the number of full-sheet rows with a truthy column-C value whose string form
is `s`. -/
def stringCount (full : List Row) (s : String) : Nat :=
  (full.filter fun r => truthy r.identity && (cellStr r.identity == s)).length

/-- Membership of `s` in `low_freq_strings` (line 52): `s` is a key of
`string_counts` (so it occurs at least once) and its count is at most the
threshold. -/
def isLowFreqString (full : List Row) (s : String) (threshold : Nat) : Bool :=
  decide (0 < stringCount full s ∧ stringCount full s ≤ threshold)

/-- The removal test of lines 77–78: a sample-sheet row is moved to the
low-frequency sheet iff its column-C value is truthy and its string form is
in `low_freq_strings`. -/
def isRemoved (full : List Row) (threshold : Nat) (r : Row) : Bool :=
  truthy r.identity && isLowFreqString full (cellStr r.identity) threshold

/-- The data rows appended to the `_lf` sheet (lines 74–82): the sample-sheet
rows passing the removal test, in order. -/
def lfRows (full sample : List Row) (threshold : Nat) : List Row :=
  sample.filter (isRemoved full threshold)

/-- The sample sheet after `delete_rows` removed the collected indices
(lines 102–104): the sample-sheet rows failing the removal test, in order. -/
def reducedSample (full sample : List Row) (threshold : Nat) : List Row :=
  sample.filter fun r => !(isRemoved full threshold r)

/-- The per-sheet entries `process_workbook` stores in `results[sheet_name]`. -/
structure SheetResult where
  total_rows : Nat
  total_lf_rows : Nat
  total_hf_rows : Int
  low_freq_metaphors : Nat
  sample_remaining_rows : Nat
  sample_metaphors : Nat
  hf_estimated_metaphors : ℚ
  final_estimate_excluding_extra : ℚ
deriving DecidableEq, Repr

/-- Lines 40–126 of `07_frequenciesandestimates.py` for one regular sheet
(`full`) and its `_20%` sample sheet (`sample`), threshold 20.  Note line 120
multiplies the sample metaphor rate by `row_count` (the full sheet's total
row count). -/
def processSheet (full sample : List Row) : SheetResult :=
  { total_rows := full.length
    total_lf_rows := (lfRows full sample 20).length
    total_hf_rows := (full.length : Int) - (lfRows full sample 20).length
    low_freq_metaphors := countMetaphors (lfRows full sample 20)
    sample_remaining_rows := (reducedSample full sample 20).length
    sample_metaphors := countMetaphors (reducedSample full sample 20)
    hf_estimated_metaphors :=
      if 0 < (reducedSample full sample 20).length then
        ((countMetaphors (reducedSample full sample 20) : ℚ) /
            ((reducedSample full sample 20).length : ℚ)) * (full.length : ℚ)
      else 0
    final_estimate_excluding_extra :=
      (if 0 < (reducedSample full sample 20).length then
        ((countMetaphors (reducedSample full sample 20) : ℚ) /
            ((reducedSample full sample 20).length : ℚ)) * (full.length : ℚ)
      else 0) + (countMetaphors (lfRows full sample 20) : ℚ) }

/-! ### The sampler (`06_takeasampleoftypes.py`) -/

/-- `sample_size = max(1, int(len(rows) * 0.2))` (line 34).  For the row
counts a worksheet can hold, `int(len(rows) * 0.2)` equals `len(rows) / 5`
in integer arithmetic. -/
def sample_size (n : Nat) : Nat := max 1 (n / 5)

/-- The per-group branch of the sampling loop (lines 30–35): keep the whole
group when it has fewer than 20 rows, otherwise hand `sample_size` to the
random draw.  The unseeded `random.sample` is abstracted as the function
`draw`, about which theorems assume only what `random.sample` guarantees:
it returns exactly the requested number of rows, drawn from the group
without replacement. -/
def sampledGroup (draw : List Row → Nat → List Row) (rows : List Row) :
    List Row :=
  if rows.length < 20 then rows else draw rows (sample_size rows.length)

/-- `draw` behaves like `random.sample`: whenever the requested size is at
most the population size, it returns exactly that many rows (`length`) and
draws them without replacement (the result is a permutation of a sublist of
the population). -/
def DrawsWithoutReplacement (draw : List Row → Nat → List Row) : Prop :=
  ∀ rows k, k ≤ rows.length →
    (draw rows k).length = k ∧ ∃ t, t.Sublist rows ∧ (draw rows k).Perm t

/-- Error signalled for malformed sampling parameters. -/
inductive SampleError where
  | InvalidInput
deriving DecidableEq, Repr

/-- Modelled from the spec: the sampler in `06_takeasampleoftypes.py` is a
script whose fraction and minimum group size are hard-coded to `0.2` and
`20`, with no parameter interface and hence no validation code in the
source; spec §4.1 gives the sampler the contract
`sample(records, group_key_fn, fraction=0.2, min_group_size=20)` and
"signals `InvalidInput` if `fraction` not in (0,1] or `min_group_size < 1`",
otherwise sampling each group as the script does, with
`max(1, floor(size * fraction))` in the large-group branch. -/
def sampleWithParams (fraction : ℚ) (min_group_size : Nat)
    (draw : List Row → Nat → List Row) (groups : List (List Row)) :
    Except SampleError (List (List Row)) :=
  if ¬(0 < fraction ∧ fraction ≤ 1) ∨ min_group_size < 1 then
    .error SampleError.InvalidInput
  else
    .ok (groups.map fun rows =>
      if rows.length < min_group_size then rows
      else draw rows (max 1 ⌊(rows.length : ℚ) * fraction⌋₊))

/-! ### The significance engine (`08_calculatingsignificanceandeffect.py`) -/

/-- One input row of the statistics CSV: `Vehicle_group, SSC_Raw, SSC_RF,
LEC_Raw, LEC_RF`.  The numeric columns are modelled as exact rationals. -/
structure VGRow where
  vehicle_group : String
  sscRaw : ℚ
  sscRF : ℚ
  lecRaw : ℚ
  lecRF : ℚ
deriving DecidableEq, Repr

/-- Whether a row is the TOTALS row: its group label, upper-cased, is
`"TOTALS"` (line 50). -/
def isTotalsRow (r : VGRow) : Bool := strUpper r.vehicle_group == "TOTALS"

/-- `infer_corpus_sizes_from_totals` (lines 46–64): take the first TOTALS
row (`values[0]`), fail if there is none or if either RF total is ≤ 0, else
return `raw_total * (1000 / rf_total)` for each corpus. -/
def infer_corpus_sizes_from_totals (df : List VGRow) : Except String (ℚ × ℚ) :=
  match df.find? isTotalsRow with
  | none => .error "No TOTALS row found."
  | some t =>
    if t.sscRF ≤ 0 ∨ t.lecRF ≤ 0 then
      .error "TOTALS RF values must be > 0 to infer corpus size."
    else
      .ok (t.sscRaw * (1000 / t.sscRF), t.lecRaw * (1000 / t.lecRF))

/-- The corpus-size establishment step of `calculate_statistics`
(lines 152–158): infer from the TOTALS row whenever either size was not
supplied, then fail unless both sizes are positive. -/
def establishCorpusSizes (df : List VGRow) :
    Option ℚ → Option ℚ → Except String (ℚ × ℚ)
  | some s, some l =>
    if s ≤ 0 ∨ l ≤ 0 then .error "Corpus sizes must be > 0." else .ok (s, l)
  | _, _ =>
    match infer_corpus_sizes_from_totals df with
    | .error e => .error e
    | .ok (s, l) =>
      if s ≤ 0 ∨ l ≤ 0 then .error "Corpus sizes must be > 0." else .ok (s, l)

open Real in
/-- `g2_log_likelihood` (lines 67–100) over the reals:
`c = ssc_words - a`, `d = lec_words - b`, expected cell counts under
independence, and `2 · Σ observed · ln(observed/expected)` where a summand
is added only when both its expected and its observed value are positive. -/
noncomputable def g2_log_likelihood (a b ssc_words lec_words : ℝ) : ℝ :=
  if ssc_words + lec_words ≤ 0 then 0
  else
    2 * ((if 0 < (a + b) * ssc_words / (ssc_words + lec_words) ∧ 0 < a then
            a * log (a / ((a + b) * ssc_words / (ssc_words + lec_words)))
          else 0) +
         (if 0 < (a + b) * lec_words / (ssc_words + lec_words) ∧ 0 < b then
            b * log (b / ((a + b) * lec_words / (ssc_words + lec_words)))
          else 0) +
         (if 0 < ((ssc_words - a) + (lec_words - b)) * ssc_words /
                (ssc_words + lec_words) ∧ 0 < ssc_words - a then
            (ssc_words - a) * log ((ssc_words - a) /
              (((ssc_words - a) + (lec_words - b)) * ssc_words /
                (ssc_words + lec_words)))
          else 0) +
         (if 0 < ((ssc_words - a) + (lec_words - b)) * lec_words /
                (ssc_words + lec_words) ∧ 0 < lec_words - b then
            (lec_words - b) * log ((lec_words - b) /
              (((ssc_words - a) + (lec_words - b)) * lec_words /
                (ssc_words + lec_words)))
          else 0))

/-- `log_ratio_log2` (lines 103–117) over the reals, `zero_floor`
defaulting to `1e-5` at every call site. -/
noncomputable def log_ratio_log2 (ssc_rf lec_rf zero_floor : ℝ) : ℝ :=
  if 0 < ssc_rf ∧ 0 < lec_rf then Real.logb 2 (ssc_rf / lec_rf)
  else if 0 < ssc_rf ∧ lec_rf ≤ 0 then Real.logb 2 (ssc_rf / zero_floor)
  else if ssc_rf ≤ 0 ∧ 0 < lec_rf then -Real.logb 2 (lec_rf / zero_floor)
  else 0

/-! ### Helper lemmas -/

/-- A filter and its negation partition a list's length. -/
lemma length_filter_partition (l : List Row) (p : Row → Bool) :
    (l.filter p).length + (l.filter fun a => !(p a)).length = l.length := by
  induction l with
  | nil => simp
  | cons a l ih =>
    by_cases h : p a = true <;> simp [List.filter_cons, h, ← ih] <;> omega

/-! ### Claims about the frequency partitioner and estimator -/

/-- The metaphor rule as the spec words it: the annotation, upper-cased,
equals `"Y"` or `"O"`; a missing annotation is non-metaphor. -/
def specIsMetaphor : Cell → Prop
  | none => False
  | some s => strUpper s = "Y" ∨ strUpper s = "O"

/-- C9: a row counts as a metaphor occurrence iff its annotation column,
upper-cased, equals `"Y"` or `"O"`; any other value, including a missing
cell, is non-metaphor.  `isMetaphor` is the test every counting loop of
`process_workbook` (extra sheet, low-frequency sheet, reduced sample sheet)
applies to column E. -/
theorem C9_metaphor_rule : ∀ v : Cell, (isMetaphor v = true ↔ specIsMetaphor v) := by
  intro v
  cases v with
  | none => simp [isMetaphor, truthy, specIsMetaphor]
  | some s =>
    simp only [isMetaphor, truthy, cellStr, specIsMetaphor, Bool.and_eq_true,
      Bool.or_eq_true, beq_iff_eq, decide_eq_true_eq]
    constructor
    · exact fun h => h.2
    · intro h
      refine ⟨?_, h⟩
      rintro rfl
      exact absurd h (by decide)

/-- A full sheet holding twenty rows of the identity `"c"` (so `"c"` is a
low-frequency type: its count is exactly the threshold). -/
def fullC2 : List Row := (List.range 20).map fun i => ⟨some "c", none, toString i⟩

/-- A sample sheet into which only four of `fullC2`'s twenty rows were
drawn. -/
def sampleC2 : List Row := (List.range 4).map fun i => ⟨some "c", none, toString i⟩

/-- C2 counterexample: the low-frequency output does NOT contain every
full-sheet row of a low-frequency type.  With twenty rows of identity
`"c"` in the full sheet (count 20 ≤ threshold 20, hence low-frequency) and
only four of them drawn into the sample sheet, row `"5"` of the full sheet
is absent from the low-frequency output, because the partitioner scans only
the sample sheet. -/
theorem C2_counterexample :
    ¬ (∀ r ∈ fullC2, truthy r.identity = true →
        stringCount fullC2 (cellStr r.identity) ≤ 20 →
        r ∈ lfRows fullC2 sampleC2 20) := by
  intro h
  have h5 := h ⟨some "c", none, "5"⟩ (by decide) (by decide) (by decide)
  exact absurd h5 (by decide)

/-- C2 amended: the low-frequency output contains exactly those
sample-sheet rows whose (truthy) identity occurs at least once and at most
threshold times in the full sheet; full-sheet rows of a low-frequency type
that were not drawn into the sample sheet are not in it. -/
theorem C2_lf_rows_exactly_sampled (full sample : List Row) (threshold : Nat)
    (r : Row) :
    r ∈ lfRows full sample threshold ↔
      r ∈ sample ∧ truthy r.identity = true ∧
        0 < stringCount full (cellStr r.identity) ∧
        stringCount full (cellStr r.identity) ≤ threshold := by
  simp [lfRows, isRemoved, isLowFreqString, List.mem_filter, and_assoc]

/-- C6: for a type classified low-frequency (it occurs in the full sheet,
at most threshold times), no row with that identity survives into the
reduced sample, and the stored low-frequency row count plus the remaining
sample row count partition the sample sheet — `total_lf_rows` is exactly
the number of rows removed from the sample. -/
theorem C6_no_double_counting (full sample : List Row) (s : String)
    (h1 : 0 < stringCount full s) (h2 : stringCount full s ≤ 20) :
    ((reducedSample full sample 20).filter
        (fun r => truthy r.identity && (cellStr r.identity == s))).length = 0 ∧
      (processSheet full sample).total_lf_rows +
          (processSheet full sample).sample_remaining_rows = sample.length := by
  constructor
  · rw [List.length_eq_zero, List.filter_eq_nil_iff]
    intro r hr
    simp only [reducedSample, List.mem_filter, Bool.not_eq_true'] at hr
    simp only [Bool.and_eq_true, beq_iff_eq, not_and, decide_eq_true_eq]
    intro htr hs
    have : isRemoved full 20 r = true := by
      simp [isRemoved, isLowFreqString, htr, hs, h1, h2]
    rw [this] at hr
    exact absurd hr.2 (by simp)
  · exact length_filter_partition sample (isRemoved full 20)

/-- Witness for C6 at a concrete sheet: identity `"a"` occurs once in the
full sheet, its single sample row is removed, and the partition equation
holds. -/
theorem C6_no_double_counting_witness :
    0 < stringCount [⟨some "a", none, ""⟩] "a" ∧
      stringCount [⟨some "a", none, ""⟩] "a" ≤ 20 ∧
      ((reducedSample [⟨some "a", none, ""⟩] [⟨some "a", some "Y", ""⟩] 20).filter
          (fun r => truthy r.identity && (cellStr r.identity == "a"))).length = 0 ∧
      (processSheet [⟨some "a", none, ""⟩] [⟨some "a", some "Y", ""⟩]).total_lf_rows +
          (processSheet [⟨some "a", none, ""⟩]
            [⟨some "a", some "Y", ""⟩]).sample_remaining_rows = 1 := by
  refine ⟨by decide, by decide, ?_⟩
  have h := C6_no_double_counting [⟨some "a", none, ""⟩]
    [⟨some "a", some "Y", ""⟩] "a" (by decide) (by decide)
  exact ⟨h.1, h.2⟩

/-- C10: a row whose identity cell is empty (or holds the empty string) is
excluded from the per-identity counts over the full sheet, is never moved
into the low-frequency sheet, stays in the reduced sample, and the stored
`sample_remaining_rows` is the row count of that reduced sample. -/
theorem C10_empty_identity (full sample : List Row) (r : Row)
    (hfalsy : truthy r.identity = false) :
    (∀ s, stringCount (r :: full) s = stringCount full s) ∧
      (r ∈ sample → r ∉ lfRows full sample 20) ∧
      (r ∈ sample → r ∈ reducedSample full sample 20) ∧
      (processSheet full sample).sample_remaining_rows =
        (reducedSample full sample 20).length := by
  refine ⟨?_, ?_, ?_, rfl⟩
  · intro s
    simp [stringCount, List.filter_cons, hfalsy]
  · intro _ hmem
    simp only [lfRows, List.mem_filter, isRemoved, hfalsy, Bool.false_and] at hmem
    exact absurd hmem.2 (by simp)
  · intro hmem
    simp only [reducedSample, List.mem_filter, isRemoved, hfalsy, Bool.false_and]
    exact ⟨hmem, rfl⟩

/-- Witness for C10: the empty-identity row `⟨none, some "Y", ""⟩` in a
one-row sample sheet. -/
theorem C10_empty_identity_witness :
    truthy (none : Cell) = false ∧
      stringCount [⟨none, some "Y", ""⟩] "x" = stringCount [] "x" ∧
      (⟨none, some "Y", ""⟩ : Row) ∉ lfRows [] [⟨none, some "Y", ""⟩] 20 ∧
      (⟨none, some "Y", ""⟩ : Row) ∈ reducedSample [] [⟨none, some "Y", ""⟩] 20 ∧
      (processSheet [] [⟨none, some "Y", ""⟩]).sample_remaining_rows =
        (reducedSample [] [⟨none, some "Y", ""⟩] 20).length := by
  have h := C10_empty_identity [] [⟨none, some "Y", ""⟩] ⟨none, some "Y", ""⟩ rfl
  exact ⟨rfl, h.1 "x", h.2.1 (by decide), h.2.2.1 (by decide), h.2.2.2⟩

/-- A full sheet with one low-frequency row (identity `"a"`, count 1) and a
high-frequency type `"b"` occurring 21 times. -/
def fullC1 : List Row :=
  ⟨some "a", none, ""⟩ :: List.replicate 21 ⟨some "b", some "Y", ""⟩

/-- Its sample sheet: the `"a"` row (annotated `Y`) plus two `"b"` rows, one
annotated `Y`. -/
def sampleC1 : List Row :=
  [⟨some "a", some "Y", ""⟩, ⟨some "b", some "Y", ""⟩, ⟨some "b", some "N", ""⟩]

/-- C1: the scale-up line of `process_workbook` multiplies the sample
metaphor rate by `row_count` — the full sheet's TOTAL row count — rather
than by `total_hf_rows` as the claim (and the code's own comment, "scale up
based on the proportion of sample rows to total HF rows") states.  On this
sheet the code stores `(1/2)·22 = 11`, whereas the claimed formula gives
`(1/2)·21 = 21/2`. -/
theorem C1_code_at_failing_input :
    (processSheet fullC1 sampleC1).total_rows = 22 ∧
      (processSheet fullC1 sampleC1).total_lf_rows = 1 ∧
      (processSheet fullC1 sampleC1).total_hf_rows = 21 ∧
      (processSheet fullC1 sampleC1).sample_metaphors = 1 ∧
      (processSheet fullC1 sampleC1).sample_remaining_rows = 2 ∧
      (processSheet fullC1 sampleC1).hf_estimated_metaphors = 11 ∧
      ((processSheet fullC1 sampleC1).sample_metaphors : ℚ) /
          ((processSheet fullC1 sampleC1).sample_remaining_rows : ℚ) *
          ((processSheet fullC1 sampleC1).total_hf_rows : ℚ) = 21 / 2 ∧
      (11 : ℚ) ≠ 21 / 2 := by
  have hlf : (lfRows fullC1 sampleC1 20).length = 1 := by decide
  have hred : (reducedSample fullC1 sampleC1 20).length = 2 := by decide
  have hmet : countMetaphors (reducedSample fullC1 sampleC1 20) = 1 := by decide
  have hfull : fullC1.length = 22 := by decide
  refine ⟨by decide, by decide, by decide, by decide, by decide, ?_, ?_, by norm_num⟩
  · show (if 0 < (reducedSample fullC1 sampleC1 20).length then
        ((countMetaphors (reducedSample fullC1 sampleC1 20) : ℚ) /
            ((reducedSample fullC1 sampleC1 20).length : ℚ)) * (fullC1.length : ℚ)
      else 0) = 11
    rw [hred, hmet, hfull]
    norm_num
  · show ((countMetaphors (reducedSample fullC1 sampleC1 20) : ℚ) /
          ((reducedSample fullC1 sampleC1 20).length : ℚ)) *
        (((fullC1.length : Int) - (lfRows fullC1 sampleC1 20).length : Int) : ℚ) = 21 / 2
    rw [hlf, hred, hmet, hfull]
    norm_num

/-! ### Claims about the sampler -/

/-- C4: under the guarantees `random.sample` provides (exactly the requested
number of rows, drawn without replacement), a group with fewer than 20 rows
is kept whole, and a group with at least 20 rows yields exactly
`max(1, floor(size * 0.2))` rows, drawn from the group without
replacement. -/
theorem C4_sampling_coverage (draw : List Row → Nat → List Row)
    (hdraw : DrawsWithoutReplacement draw) (rows : List Row) :
    (rows.length < 20 → sampledGroup draw rows = rows) ∧
      (20 ≤ rows.length →
        (sampledGroup draw rows).length = max 1 ⌊(rows.length : ℚ) * (1 / 5)⌋₊ ∧
          ∃ t, t.Sublist rows ∧ (sampledGroup draw rows).Perm t) := by
  constructor
  · intro h
    simp [sampledGroup, h]
  · intro h
    have hk : sample_size rows.length ≤ rows.length := by
      have := Nat.div_le_self rows.length 5
      unfold sample_size
      omega
    have hd := hdraw rows (sample_size rows.length) hk
    have hbranch : sampledGroup draw rows = draw rows (sample_size rows.length) := by
      simp [sampledGroup, Nat.not_lt.2 h]
    refine ⟨?_, ?_⟩
    · rw [hbranch, hd.1]
      unfold sample_size
      congr 1
      have hq : ((rows.length : ℚ) * (1 / 5)) = ((rows.length : ℕ) : ℚ) / ((5 : ℕ) : ℚ) := by
        push_cast
        ring
      rw [hq, Nat.floor_div_nat, Nat.floor_natCast]
    · rw [hbranch]
      exact hd.2

/-- Witness for C4: drawing by `take` satisfies the `random.sample`
guarantees, and a 25-row group yields `max(1, floor(25/5)) = 5` rows. -/
theorem C4_sampling_coverage_witness :
    20 ≤ (List.replicate 25 (⟨some "n", none, ""⟩ : Row)).length ∧
      (sampledGroup (fun l k => l.take k)
          (List.replicate 25 (⟨some "n", none, ""⟩ : Row))).length =
        max 1 ⌊((List.replicate 25 (⟨some "n", none, ""⟩ : Row)).length : ℚ) * (1 / 5)⌋₊ := by
  have hdraw : DrawsWithoutReplacement (fun l k => l.take k) := by
    intro rows k hk
    refine ⟨?_, rows.take k, List.take_sublist k rows, List.Perm.refl _⟩
    simp [List.length_take, Nat.min_eq_left hk]
  exact ⟨by decide,
    ((C4_sampling_coverage (fun l k => l.take k) hdraw
      (List.replicate 25 ⟨some "n", none, ""⟩)).2 (by decide)).1⟩

/-- C5: the validated sampler contract signals `InvalidInput` whenever the
fraction is outside (0, 1] or the minimum group size is below 1. -/
theorem C5_invalid_input (fraction : ℚ) (min_group_size : Nat)
    (draw : List Row → Nat → List Row) (groups : List (List Row))
    (h : ¬(0 < fraction ∧ fraction ≤ 1) ∨ min_group_size < 1) :
    sampleWithParams fraction min_group_size draw groups =
      .error SampleError.InvalidInput := by
  unfold sampleWithParams
  rw [if_pos h]

/-- Witness for C5: `fraction = 2` is rejected. -/
theorem C5_invalid_input_witness :
    (¬((0 : ℚ) < 2 ∧ (2 : ℚ) ≤ 1) ∨ (20 : Nat) < 1) ∧
      sampleWithParams 2 20 (fun l _ => l) [] =
        .error SampleError.InvalidInput := by
  have h : ¬((0 : ℚ) < 2 ∧ (2 : ℚ) ≤ 1) ∨ (20 : Nat) < 1 := by norm_num
  exact ⟨h, C5_invalid_input 2 20 (fun l _ => l) [] h⟩

/-! ### Claims about the significance engine -/

/-- The positivity gate every corpus-size result passes through
(line 157). -/
lemma pos_of_size_check {s l x y : ℚ}
    (h : (if x ≤ 0 ∨ y ≤ 0 then
            (Except.error "Corpus sizes must be > 0." : Except String (ℚ × ℚ))
          else .ok (x, y)) = .ok (s, l)) :
    0 < s ∧ 0 < l := by
  split at h
  · exact absurd h (by simp)
  · next hcond =>
    push_neg at hcond
    simp only [Except.ok.injEq, Prod.mk.injEq] at h
    obtain ⟨rfl, rfl⟩ := h
    exact hcond

/-- C8: when no group label upper-cases to `"TOTALS"` and a corpus size was
not supplied, establishing corpus sizes fails; when a TOTALS row is found
and its RF totals are positive, each inferred size is
`raw_total * 1000 / rf_total`; and corpus-size establishment only ever
succeeds with both sizes positive (a non-positive inferred or supplied size
is rejected with an error). -/
theorem C8_corpus_sizes (df : List VGRow) (o1 o2 : Option ℚ) (t : VGRow) :
    ((∀ r ∈ df, isTotalsRow r = false) → (o1 = none ∨ o2 = none) →
        establishCorpusSizes df o1 o2 = .error "No TOTALS row found.") ∧
      (df.find? isTotalsRow = some t → 0 < t.sscRF → 0 < t.lecRF →
        infer_corpus_sizes_from_totals df =
          .ok (t.sscRaw * 1000 / t.sscRF, t.lecRaw * 1000 / t.lecRF)) ∧
      (∀ s l, establishCorpusSizes df o1 o2 = .ok (s, l) → 0 < s ∧ 0 < l) := by
  refine ⟨?_, ?_, ?_⟩
  · intro hno hmiss
    have hfind : df.find? isTotalsRow = none :=
      List.find?_eq_none.2 fun r hr => by simp [hno r hr]
    rcases hmiss with rfl | rfl
    · cases o2 <;>
        simp [establishCorpusSizes, infer_corpus_sizes_from_totals, hfind]
    · cases o1 <;>
        simp [establishCorpusSizes, infer_corpus_sizes_from_totals, hfind]
  · intro ht hs hl
    have hcond : ¬(t.sscRF ≤ 0 ∨ t.lecRF ≤ 0) := by
      push_neg
      exact ⟨hs, hl⟩
    simp only [infer_corpus_sizes_from_totals, ht, if_neg hcond,
      Except.ok.injEq, Prod.mk.injEq]
    constructor <;> rw [mul_div_assoc]
  · intro s l h
    cases o1 with
    | some a =>
      cases o2 with
      | some b => exact pos_of_size_check h
      | none =>
        simp only [establishCorpusSizes] at h
        cases hinf : infer_corpus_sizes_from_totals df with
        | error e => rw [hinf] at h; exact absurd h (by simp)
        | ok p => rw [hinf] at h; exact pos_of_size_check h
    | none =>
      simp only [establishCorpusSizes] at h
      cases hinf : infer_corpus_sizes_from_totals df with
      | error e => rw [hinf] at h; exact absurd h (by simp)
      | ok p => rw [hinf] at h; exact pos_of_size_check h

/-- Witness for C8 on a one-row table whose label `"Totals"` upper-cases to
`"TOTALS"`. -/
theorem C8_corpus_sizes_witness :
    ([⟨"Totals", 5, 2, 8, 4⟩] : List VGRow).find? isTotalsRow =
        some ⟨"Totals", 5, 2, 8, 4⟩ ∧
      (0 : ℚ) < 2 ∧ (0 : ℚ) < 4 ∧
      infer_corpus_sizes_from_totals [⟨"Totals", 5, 2, 8, 4⟩] =
        .ok ((5 : ℚ) * 1000 / 2, (8 : ℚ) * 1000 / 4) := by
  refine ⟨rfl, by norm_num, by norm_num, ?_⟩
  exact (C8_corpus_sizes [⟨"Totals", 5, 2, 8, 4⟩] none none
    ⟨"Totals", 5, 2, 8, 4⟩).2.1 rfl (by norm_num) (by norm_num)

/-- C3 counterexample: with SSC_RF = 0 and LEC_RF = 1/200000 (a positive
relative frequency below the floor 1e-5), exactly one side is zero, yet the
effect size is `-log2((1/200000)/(1/100000)) = 1`, which is positive — the
claim says an SSC-zero input yields a negative value. -/
theorem C3_counterexample :
    ¬ log_ratio_log2 0 (1 / 200000) (1 / 100000) < 0 ∧
      log_ratio_log2 0 (1 / 200000) (1 / 100000) = 1 := by
  have hval : log_ratio_log2 0 (1 / 200000) (1 / 100000) = 1 := by
    unfold log_ratio_log2
    rw [if_neg (by norm_num), if_neg (by norm_num), if_pos (by norm_num)]
    have hhalf : ((1 : ℝ) / 200000) / ((1 : ℝ) / 100000) = 2⁻¹ := by norm_num
    rw [hhalf, Real.logb_inv, neg_neg, Real.logb_self_eq_one (by norm_num)]
  exact ⟨by rw [hval]; norm_num, hval⟩

/-- C3 amended: with `zero_floor = 1e-5`, the effect size is
`log2(ssc_rf/lec_rf)` when both sides are positive; when exactly one side
is 0 the floor is substituted for that side before taking the ratio, and
the sign is as claimed PROVIDED the nonzero side exceeds the floor
(SSC-zero with `lec_rf > 1e-5` is negative, LEC-zero with `ssc_rf > 1e-5`
is positive); when both sides are 0 the result is 0.  The real-valued
embedding is total, so no input yields NaN. -/
theorem C3_log_ratio_amended (s l : ℝ) :
    (0 < s → 0 < l → log_ratio_log2 s l (1 / 100000) = Real.logb 2 (s / l)) ∧
      (s = 0 → 0 < l →
        log_ratio_log2 s l (1 / 100000) = -Real.logb 2 (l / (1 / 100000))) ∧
      (s = 0 → 1 / 100000 < l → log_ratio_log2 s l (1 / 100000) < 0) ∧
      (l = 0 → 0 < s →
        log_ratio_log2 s l (1 / 100000) = Real.logb 2 (s / (1 / 100000))) ∧
      (l = 0 → 1 / 100000 < s → 0 < log_ratio_log2 s l (1 / 100000)) ∧
      (s = 0 → l = 0 → log_ratio_log2 s l (1 / 100000) = 0) := by
  have hfloor : (0 : ℝ) < 1 / 100000 := by norm_num
  refine ⟨?_, ?_, ?_, ?_, ?_, ?_⟩
  · intro hs hl
    unfold log_ratio_log2
    rw [if_pos ⟨hs, hl⟩]
  · rintro rfl hl
    unfold log_ratio_log2
    rw [if_neg (fun h => lt_irrefl 0 h.1), if_neg (fun h => lt_irrefl 0 h.1),
      if_pos ⟨le_refl 0, hl⟩]
  · rintro rfl hl
    have heq : log_ratio_log2 0 l (1 / 100000) = -Real.logb 2 (l / (1 / 100000)) := by
      unfold log_ratio_log2
      rw [if_neg (fun h => lt_irrefl 0 h.1), if_neg (fun h => lt_irrefl 0 h.1),
        if_pos ⟨le_refl 0, lt_trans hfloor hl⟩]
    rw [heq, neg_lt, neg_zero]
    exact Real.logb_pos (by norm_num) ((one_lt_div hfloor).2 hl)
  · rintro rfl hs
    unfold log_ratio_log2
    rw [if_neg (fun h => lt_irrefl 0 h.2), if_pos ⟨hs, le_refl 0⟩]
  · rintro rfl hs
    have heq : log_ratio_log2 s 0 (1 / 100000) = Real.logb 2 (s / (1 / 100000)) := by
      unfold log_ratio_log2
      rw [if_neg (fun h => lt_irrefl 0 h.2), if_pos ⟨lt_trans hfloor hs, le_refl 0⟩]
    rw [heq]
    exact Real.logb_pos (by norm_num) ((one_lt_div hfloor).2 hs)
  · rintro rfl rfl
    unfold log_ratio_log2
    rw [if_neg (fun h => lt_irrefl 0 h.1), if_neg (fun h => lt_irrefl 0 h.1),
      if_neg (fun h => lt_irrefl 0 h.2)]

/-- Witness for C3 at SSC_RF = 0, LEC_RF = 1: the floor is substituted on
the SSC side and the result is negative. -/
theorem C3_log_ratio_amended_witness :
    log_ratio_log2 0 1 (1 / 100000) = -Real.logb 2 (1 / (1 / 100000)) ∧
      log_ratio_log2 0 1 (1 / 100000) < 0 := by
  obtain ⟨-, h2, h3, -, -, -⟩ := C3_log_ratio_amended 0 1
  exact ⟨h2 rfl one_pos, h3 rfl (by norm_num)⟩

/-- One contingency cell's contribution to G² dominates
`observed - expected`: the inequality `log x ≤ x - 1` at `x = e/o`. -/
lemma cell_term_ge (o e : ℝ) (ho : 0 ≤ o) (he : 0 ≤ e) (himp : 0 < o → 0 < e) :
    o - e ≤ if 0 < e ∧ 0 < o then o * Real.log (o / e) else 0 := by
  by_cases hpos : 0 < o
  · have hepos := himp hpos
    rw [if_pos ⟨hepos, hpos⟩]
    have hlog : Real.log (e / o) ≤ e / o - 1 :=
      Real.log_le_sub_one_of_pos (div_pos hepos hpos)
    have hrw : Real.log (o / e) = -Real.log (e / o) := by
      rw [← Real.log_inv]
      congr 1
      rw [inv_div]
    have hmul : o * Real.log (e / o) ≤ e - o := by
      have h1 := mul_le_mul_of_nonneg_left hlog (le_of_lt hpos)
      have h2 : o * (e / o - 1) = e - o := by
        field_simp
      linarith
    rw [hrw, mul_neg]
    linarith
  · have ho0 : o = 0 := le_antisymm (not_lt.1 hpos) ho
    rw [if_neg fun h => hpos h.2, ho0]
    linarith

/-- C7: for corpus sizes > 0 and raw counts within their corpora, the G²
statistic — a sum over the four contingency cells in which a cell
contributes only when its observed and expected values are positive — is
nonnegative.  The real-valued embedding is total, so no valid input yields
NaN. -/
theorem C7_g2_nonneg (a b ssc_words lec_words : ℝ)
    (ha0 : 0 ≤ a) (ha : a ≤ ssc_words) (hb0 : 0 ≤ b) (hb : b ≤ lec_words)
    (hssc : 0 < ssc_words) (hlec : 0 < lec_words) :
    0 ≤ g2_log_likelihood a b ssc_words lec_words := by
  have hN : 0 < ssc_words + lec_words := by linarith
  have hc0 : 0 ≤ ssc_words - a := by linarith
  have hd0 : 0 ≤ lec_words - b := by linarith
  unfold g2_log_likelihood
  rw [if_neg (not_le.2 hN)]
  have h1 := cell_term_ge a ((a + b) * ssc_words / (ssc_words + lec_words)) ha0
    (by positivity) (fun hp => div_pos (mul_pos (by linarith) hssc) hN)
  have h2 := cell_term_ge b ((a + b) * lec_words / (ssc_words + lec_words)) hb0
    (by positivity) (fun hp => div_pos (mul_pos (by linarith) hlec) hN)
  have h3 := cell_term_ge (ssc_words - a)
    (((ssc_words - a) + (lec_words - b)) * ssc_words / (ssc_words + lec_words)) hc0
    (by positivity) (fun hp => div_pos (mul_pos (by linarith) hssc) hN)
  have h4 := cell_term_ge (lec_words - b)
    (((ssc_words - a) + (lec_words - b)) * lec_words / (ssc_words + lec_words)) hd0
    (by positivity) (fun hp => div_pos (mul_pos (by linarith) hlec) hN)
  have hsum : (a + b) * ssc_words / (ssc_words + lec_words) +
      (a + b) * lec_words / (ssc_words + lec_words) +
      ((ssc_words - a) + (lec_words - b)) * ssc_words / (ssc_words + lec_words) +
      ((ssc_words - a) + (lec_words - b)) * lec_words / (ssc_words + lec_words) =
      a + b + (ssc_words - a) + (lec_words - b) := by
    field_simp
    ring
  linarith

/-- Witness for C7 at `a = 1, b = 1, ssc_words = 2, lec_words = 3`. -/
theorem C7_g2_nonneg_witness :
    (0 : ℝ) ≤ 1 ∧ (1 : ℝ) ≤ 2 ∧ (0 : ℝ) ≤ 1 ∧ (1 : ℝ) ≤ 3 ∧
      (0 : ℝ) < 2 ∧ (0 : ℝ) < 3 ∧ 0 ≤ g2_log_likelihood 1 1 2 3 := by
  refine ⟨by norm_num, by norm_num, by norm_num, by norm_num, by norm_num,
    by norm_num, ?_⟩
  exact C7_g2_nonneg 1 1 2 3 (by norm_num) (by norm_num) (by norm_num)
    (by norm_num) (by norm_num) (by norm_num)

end AudMetaphor
